import Mathlib

/-
Verification of the obdeck OBD2 telemetry core: a shallow embedding of the
codec (src/src/obd2/parser.py, src/micropython/obd2/commands.py), the ELM327
link routines (src/src/obd2/bluetooth.py), the acquisition loop
(src/src/main.py, obd2_thread), and the lock-protected telemetry store.
Responses and commands are modelled as lists of characters; Python floats are
modelled as rationals; Python functions that can raise return Option.
-/

/- Characters removed by parse_response: space, prompt, CR, LF. -/
def removedChar (c : Char) : Bool :=
  c = ' ' || c = '>' || c = '\r' || c = '\n'

/- response.replace(' ', '').replace('>', '').replace('\r', '').replace('\n', '') -/
def cleanResp (s : List Char) : List Char :=
  s.filter (fun c => !removedChar c)

/- Python `kw in s` substring test. -/
def containsSub (kw : List Char) : List Char → Bool
  | [] => kw.isEmpty
  | c :: rest => kw.isPrefixOf (c :: rest) || containsSub kw rest

/- Python str.upper on the ASCII letters (the only characters the adapter dialect uses). -/
def upperChar (c : Char) : Char :=
  match c with
  | 'a' => 'A' | 'b' => 'B' | 'c' => 'C' | 'd' => 'D' | 'e' => 'E' | 'f' => 'F'
  | 'g' => 'G' | 'h' => 'H' | 'i' => 'I' | 'j' => 'J' | 'k' => 'K' | 'l' => 'L'
  | 'm' => 'M' | 'n' => 'N' | 'o' => 'O' | 'p' => 'P' | 'q' => 'Q' | 'r' => 'R'
  | 's' => 'S' | 't' => 'T' | 'u' => 'U' | 'v' => 'V' | 'w' => 'W' | 'x' => 'X'
  | 'y' => 'Y' | 'z' => 'Z' | other => other

/- Python str.strip() whitespace set. -/
def pySpace (c : Char) : Bool :=
  c = ' ' || c = '\t' || c = '\n' || c = '\r' || c = '\x0b' || c = '\x0c'

/- Python str.strip(). -/
def pyStrip (s : List Char) : List Char :=
  ((s.dropWhile pySpace).reverse.dropWhile pySpace).reverse

/- Value of one hexadecimal digit, both cases (codepoints 48-57 are the decimal
digits, 97-102 lowercase a-f, 65-70 uppercase A-F). -/
def hexDigitVal (c : Char) : Option Nat :=
  let n := c.toNat
  if 48 ≤ n ∧ n ≤ 57 then some (n - 48)
  else if 97 ≤ n ∧ n ≤ 102 then some (n - 87)
  else if 65 ≤ n ∧ n ≤ 70 then some (n - 55)
  else none

/- Digit values of a hex string, none when some character is not a hex digit. -/
def hexList : List Char → Option (List Nat)
  | [] => some []
  | c :: rest =>
    match hexDigitVal c, hexList rest with
    | some d, some ds => some (d :: ds)
    | _, _ => none

/- Python int(s, 16) on a string of hex digits; ValueError (empty or non-hex) is none. -/
def pyIntHex (s : List Char) : Option Nat :=
  match hexList s with
  | some [] => none
  | some ds => some (ds.foldl (fun a d => 16 * a + d) 0)
  | none => none

/- Uppercase hex digit character, as produced by Python format {:X} for one nibble. -/
def hexUpperDigit (n : Nat) : Char :=
  match n with
  | 0 => '0' | 1 => '1' | 2 => '2' | 3 => '3' | 4 => '4' | 5 => '5'
  | 6 => '6' | 7 => '7' | 8 => '8' | 9 => '9' | 10 => 'A' | 11 => 'B'
  | 12 => 'C' | 13 => 'D' | 14 => 'E' | 15 => 'F' | _ => '0'

/- The two-hex-digit rendering of one data byte. -/
def hexByteChars (n : Nat) : List Char :=
  [hexUpperDigit (n / 16), hexUpperDigit (n % 16)]

def noDataKw : List Char := ['N', 'O', ' ', 'D', 'A', 'T', 'A']

namespace OBD2Parser

/- OBD2Parser._parse_single_byte: a = int(hex_data[0:2], 16); formula(a). -/
def parse_single_byte (hex : List Char) (formula : Nat → ℚ) : Option ℚ :=
  (pyIntHex (hex.take 2)).map formula

/- OBD2Parser._parse_two_bytes: a = int(hex_data[0:2], 16); b = int(hex_data[2:4], 16). -/
def parse_two_bytes (hex : List Char) (formula : Nat → Nat → ℚ) : Option ℚ := do
  let a ← pyIntHex (hex.take 2)
  let b ← pyIntHex ((hex.drop 2).take 2)
  some (formula a b)

/- The part of OBD2Parser.parse_response after the cleanup: validate the Mode-41
head and dispatch on the requested pid's formula. -/
def parseMode01 (data pid : List Char) : Option ℚ :=
  if List.isPrefixOf ['4', '1'] data then
      let hex := data.drop 4
      if pid = ['0', '5'] then parse_single_byte hex (fun a => (a : ℚ) - 40)
      else if pid = ['0', 'C'] then parse_two_bytes hex (fun a b => ((a : ℚ) * 256 + b) / 4)
      else if pid = ['0', 'D'] then parse_single_byte hex (fun a => (a : ℚ))
      else if pid = ['0', 'F'] then parse_single_byte hex (fun a => (a : ℚ) - 40)
      else if pid = ['1', '1'] then parse_single_byte hex (fun a => ((a : ℚ) * 100) / 255)
      else if pid = ['4', '2'] then parse_two_bytes hex (fun a b => ((a : ℚ) * 256 + b) / 1000)
      else if pid = ['1', '0'] then parse_two_bytes hex (fun a b => ((a : ℚ) * 256 + b) / 100)
      else if pid = ['0', 'A'] then parse_single_byte hex (fun a => (a : ℚ) * 3)
      else if pid = ['0', '4'] then parse_single_byte hex (fun a => ((a : ℚ) * 100) / 255)
      else if pid = ['1', 'F'] then parse_two_bytes hex (fun a b => (a : ℚ) * 256 + b)
      else none
    else none

/- OBD2Parser.parse_response from src/src/obd2/parser.py. -/
def parse_response (response pid : List Char) : Option ℚ :=
  if response = [] then none
  else if containsSub noDataKw response then none
  else parseMode01 (cleanResp response) pid

def errorKeywords : List (List Char) :=
  [['N', 'O', ' ', 'D', 'A', 'T', 'A'],
   ['E', 'R', 'R', 'O', 'R'],
   ['U', 'N', 'A', 'B', 'L', 'E'],
   ['B', 'U', 'S', ' ', 'I', 'N', 'I', 'T'],
   ['?']]

/- OBD2Parser.is_valid_response: strip, upper, reject error keywords, require 41 head. -/
def is_valid_response (response : List Char) : Bool :=
  if response = [] then false
  else
    let data := (pyStrip response).map upperChar
    if errorKeywords.any (fun kw => containsSub kw data) then false
    else
      let clean_data := data.filter (fun c => !(c = ' '))
      List.isPrefixOf ['4', '1'] clean_data

end OBD2Parser

namespace DTCCommands

/- prefixes = {0: 'P', 1: 'C', 2: 'B', 3: 'U'}; first_digit is always masked to 0..3. -/
def dtcCategory (n : Nat) : Char :=
  match n with
  | 0 => 'P' | 1 => 'C' | 2 => 'B' | _ => 'U'

/- DTCCommands.decode_dtc from src/micropython/obd2/commands.py. -/
def decode_dtc (byte1 byte2 : Nat) : List Char :=
  let first_digit := byte1 / 64 % 4
  let second_digit := byte1 / 16 % 4
  let third_digit := byte1 % 16
  let fourth_digit := byte2 / 16 % 16
  let fifth_digit := byte2 % 16
  [dtcCategory first_digit, hexUpperDigit second_digit, hexUpperDigit third_digit,
   hexUpperDigit fourth_digit, hexUpperDigit fifth_digit]

end DTCCommands

namespace OBD2Parser

/- The while loop of parse_dtc_response, walking 2-byte (4 hex char) groups;
none models an uncaught ValueError from int(..., 16). -/
def dtcLoop : List Char → Option (List (List Char))
  | c1 :: c2 :: c3 :: c4 :: rest => do
    let b1 ← pyIntHex [c1, c2]
    let b2 ← pyIntHex [c3, c4]
    if b1 = 0 ∧ b2 = 0 then some []
    else do
      let tail ← dtcLoop rest
      some (DTCCommands.decode_dtc b1 b2 :: tail)
  | _ => some []

/- OBD2Parser.parse_dtc_response: remove spaces, upper, skip the 43xx header, walk pairs. -/
def parse_dtc_response (response : List Char) : Option (List (List Char)) :=
  if response = [] then some []
  else if containsSub noDataKw response then some []
  else
    let data := (response.filter (fun c => !(c = ' '))).map upperChar
    dtcLoop (data.drop 4)

end OBD2Parser

namespace OBD2Commands

/- OBD2Commands.PID_INFO: byte width and decode formula per PID, the formula column
transcribed from the table in src/micropython/obd2/commands.py. -/
def PID_INFO (pid : List Char) : Option (Nat × (Nat → Nat → ℚ)) :=
  if pid = ['0', '5'] then some (1, fun a _ => (a : ℚ) - 40)
  else if pid = ['0', 'C'] then some (2, fun a b => ((a : ℚ) * 256 + b) / 4)
  else if pid = ['0', 'D'] then some (1, fun a _ => (a : ℚ))
  else if pid = ['0', 'F'] then some (1, fun a _ => (a : ℚ) - 40)
  else if pid = ['1', '1'] then some (1, fun a _ => ((a : ℚ) * 100) / 255)
  else if pid = ['1', '0'] then some (2, fun a b => ((a : ℚ) * 256 + b) / 100)
  else if pid = ['0', 'A'] then some (1, fun a _ => (a : ℚ) * 3)
  else if pid = ['4', '2'] then some (2, fun a b => ((a : ℚ) * 256 + b) / 1000)
  else if pid = ['0', '4'] then some (1, fun a _ => ((a : ℚ) * 100) / 255)
  else if pid = ['1', 'F'] then some (2, fun a b => (a : ℚ) * 256 + b)
  else none

end OBD2Commands

/- The canonical cleaned Mode-01 response for a pid carrying its data bytes
(one byte a, plus b when the descriptor width is 2). -/
def mode01Canonical (pid : List Char) (w : Nat) (a b : Nat) : List Char :=
  ['4', '1'] ++ pid ++ hexByteChars a ++ (if w = 2 then hexByteChars b else [])

/- The hex-pair character rendering of a list of raw DTC status byte pairs. -/
def hexPairsChars : List (Nat × Nat) → List Char
  | [] => []
  | (b1, b2) :: rest => hexByteChars b1 ++ hexByteChars b2 ++ hexPairsChars rest

namespace BluetoothConnection

/- The fixed initialization sequence of init_elm327 (src/src/obd2/bluetooth.py). -/
def initCmds : List (List Char) :=
  [['A', 'T', 'Z'],
   ['A', 'T', 'E', '0'],
   ['A', 'T', 'L', '0'],
   ['A', 'T', 'S', '0'],
   ['A', 'T', 'S', 'P', '0'],
   ['A', 'T', 'A', 'T', '1'],
   ['0', '1', '0', '0']]

/- The explicit error-keyword test of init_elm327: 'ERROR' in response or 'UNABLE' in response. -/
def initErrKeyword (r : List Char) : Bool :=
  containsSub ['E', 'R', 'R', 'O', 'R'] r || containsSub ['U', 'N', 'A', 'B', 'L', 'E'] r

/- One initialization command passes when some response arrives carrying no error keyword. -/
def cmdPasses (env : List Char → Option (List Char)) (c : List Char) : Bool :=
  match env c with
  | none => false
  | some r => !initErrKeyword r

/- The for-loop of init_elm327 over a command list: returns the overall result and
the list of commands actually sent, in order. -/
def initRun (env : List Char → Option (List Char)) : List (List Char) → Bool × List (List Char)
  | [] => (true, [])
  | c :: rest =>
    match env c with
    | none => (false, [c])
    | some r =>
      if initErrKeyword r then (false, [c])
      else
        let out := initRun env rest
        (out.1, c :: out.2)

/- BluetoothConnection.init_elm327, with the adapter's response behavior as an oracle. -/
def init_elm327 (connected : Bool) (env : List Char → Option (List Char)) : Bool × List (List Char) :=
  if connected then initRun env initCmds else (false, [])

/- Outcome of one physical connection attempt: response test passed, no usable
response (the retry path), or an exception during UART setup. -/
inductive AttemptOutcome
  | ok
  | noResp
  | exn
deriving DecidableEq

def pinAlt : List Char := ['0', '0', '0', '0']

/- BluetoothConnection.connect with an explicit fuel bound on the recursion
(`return self.connect()` after switching to PIN 0000); env gives the outcome of
the k-th physical attempt; the result is the returned bool and the pins tried,
none meaning the fuel ran out before the recursion terminated. -/
def connectFuel (env : Nat → AttemptOutcome) :
    Nat → Nat → List Char → Bool → Option (Bool × List (List Char))
  | 0, _, _, _ => none
  | fuel + 1, k, pin, auto =>
    match env k with
    | .ok => some (true, [pin])
    | .exn => some (false, [pin])
    | .noResp =>
      if auto = true ∧ pin ≠ pinAlt then
        match connectFuel env fuel (k + 1) pinAlt auto with
        | some out => some (out.1, pin :: out.2)
        | none => none
      else some (false, [pin])

end BluetoothConnection

namespace ObdeckMain

/- The keys of OBD2Commands.PIDS; the dictionary keys are opaque names, modelled
as an enumeration. -/
inductive PidName
  | coolantTemp
  | rpm
  | speed
  | intakeTemp
  | throttle
  | maf
  | fuelPressure
  | batteryVoltage
  | engineLoad
  | runtime
deriving DecidableEq

/- OBD2Commands.PIDS: name → two-hex-digit PID code. -/
def pidCode : PidName → List Char
  | .coolantTemp => ['0', '5']
  | .rpm => ['0', 'C']
  | .speed => ['0', 'D']
  | .intakeTemp => ['0', 'F']
  | .throttle => ['1', '1']
  | .maf => ['1', '0']
  | .fuelPressure => ['0', 'A']
  | .batteryVoltage => ['4', '2']
  | .engineLoad => ['0', '4']
  | .runtime => ['1', 'F']

/- OBD2Commands.get_pid_command: '01' + pid code (every PidName is a PIDS key). -/
def get_pid_command (n : PidName) : Option (List Char) :=
  some (['0', '1'] ++ pidCode n)

/- OBD2Commands.get_supported_pids. -/
def get_supported_pids : List PidName :=
  [.coolantTemp, .rpm, .speed, .intakeTemp, .throttle, .batteryVoltage]

/- The shared obd_data record of src/src/main.py. -/
structure ObdData where
  coolant_temp : ℚ
  rpm : ℤ
  speed : ℤ
  battery_voltage : ℚ
  intake_temp : ℚ
  throttle : ℚ
  connected : Bool
  error : List Char
  dtc_codes : List (List Char)
  dtc_count : Nat
  dtc_read : Bool
  dtc_refresh : Bool
  dtc_clear : Bool
deriving DecidableEq

/- The literal initial value of obd_data. -/
def initialObdData : ObdData :=
  { coolant_temp := 0, rpm := 0, speed := 0, battery_voltage := 0, intake_temp := 0,
    throttle := 0, connected := false, error := [], dtc_codes := [], dtc_count := 0,
    dtc_read := false, dtc_refresh := false, dtc_clear := false }

/- Python int() truncation toward zero on a rational. -/
def pyTrunc (q : ℚ) : ℤ :=
  if q < 0 then -(⌊-q⌋) else ⌊q⌋

def dtcReadCmd : List Char := ['0', '3']

def dtcClearCmd : List Char := ['0', '4']

/- read_dtcs from src/src/main.py; none models an uncaught parse exception. -/
def read_dtcs (env : List Char → Option (List Char)) (d : ObdData) : Option ObdData :=
  match env dtcReadCmd with
  | some r =>
    match OBD2Parser.parse_dtc_response r with
    | some lst => some { d with dtc_codes := lst, dtc_count := lst.length, dtc_read := true }
    | none => none
  | none => some { d with dtc_codes := [], dtc_count := 0, dtc_read := true }

/- One observable action of a polling cycle: the Mode-04 clear command, the
confirmation re-read after a successful clear, the Mode-03 read serving a
refresh request, or the periodic Mode-01 query. -/
inductive CycleAct
  | clearCmd
  | confirmRead
  | refreshRead
  | periodicQuery (command : List Char)
deriving DecidableEq

/- The per-name field update of obd2_thread after a successful parse. -/
def updateField (d : ObdData) (n : PidName) (v : ℚ) : ObdData :=
  match n with
  | .coolantTemp => { d with coolant_temp := v }
  | .rpm => { d with rpm := pyTrunc v }
  | .speed => { d with speed := pyTrunc v }
  | .intakeTemp => { d with intake_temp := v }
  | .throttle => { d with throttle := v }
  | .batteryVoltage => { d with battery_voltage := v }
  | _ => d

/- Python command[-2:]. -/
def last2 (l : List Char) : List Char := l.drop (l.length - 2)

/- Placeholder for str(e) stored by the exception handler of obd2_thread. -/
def parseErrMsg : List Char := ['p', 'a', 'r', 's', 'e', ' ', 'e', 'r', 'r', 'o', 'r']

/- The diagnostic-intent part of one loop iteration: clear_dtcs when a clear was
requested (with the confirmation re-read on a response containing '44'),
read_dtcs when a refresh was requested; none models an uncaught parse exception. -/
def cycleDiag (env : List Char → Option (List Char)) (d1 : ObdData)
    (clear_req refresh_req : Bool) : Option (ObdData × List CycleAct) :=
  if clear_req then
    match env dtcClearCmd with
    | some r =>
      if containsSub ['4', '4'] r then
        match read_dtcs env d1 with
        | some d2 => some (d2, [.clearCmd, .confirmRead])
        | none => none
      else some (d1, [.clearCmd])
    | none => some (d1, [.clearCmd])
  else if refresh_req then
    match read_dtcs env d1 with
    | some d2 => some (d2, [.refreshRead])
    | none => none
  else some (d1, [])

/- The periodic part of one loop iteration: query the pid at the rotation index
and fold a successfully parsed value into the shared record. -/
def periodicStep (env : List Char → Option (List Char)) (d2 : ObdData) (idx : Nat) :
    ObdData × List CycleAct :=
  let name := get_supported_pids.getD idx .coolantTemp
  match get_pid_command name with
  | none => (d2, [])
  | some command =>
    let d3 :=
      match env command with
      | none => d2
      | some r =>
        if OBD2Parser.is_valid_response r then
          match OBD2Parser.parse_response r (last2 command) with
          | some v => updateField d2 name v
          | none => d2
        else d2
    (d3, [CycleAct.periodicQuery command])

/- One iteration of the while loop of obd2_thread: consume and clear both intent
flags under the lock, service clear in preference to refresh, then issue the
periodic query and advance the rotation; an uncaught exception (only possible
while parsing a DTC response) stores an error message and skips the rest of the
iteration, leaving the rotation index unchanged. -/
def cycle (env : List Char → Option (List Char)) (d : ObdData) (idx : Nat) :
    (ObdData × Nat) × List CycleAct :=
  let d1 := { d with dtc_refresh := false, dtc_clear := false }
  match cycleDiag env d1 d.dtc_clear d.dtc_refresh with
  | none =>
    (({ d1 with error := parseErrMsg }, idx),
     if d.dtc_clear then [.clearCmd, .confirmRead] else [.refreshRead])
  | some (d2, acts) =>
    let out := periodicStep env d2 idx
    ((out.1, (idx + 1) % get_supported_pids.length), acts ++ out.2)

/- Environment in which every command times out (send_command returns None). -/
def envFail : List Char → Option (List Char) := fun _ => none

/- n consecutive loop iterations, collecting each iteration's actions. -/
def runCycles (env : List Char → Option (List Char)) :
    Nat → ObdData × Nat → (ObdData × Nat) × List (List CycleAct)
  | 0, s => (s, [])
  | n + 1, s =>
    let c := cycle env s.1 s.2
    let rest := runCycles env n c.1
    (rest.1, c.2 :: rest.2)

/- display_thread's request: set the refresh intent flag under the lock. -/
def request_refresh (d : ObdData) : ObdData := { d with dtc_refresh := true }

/- The shared record as it stands when steady polling begins. -/
def pollingData : ObdData := { initialObdData with connected := true }

end ObdeckMain

namespace SnapshotStore

/- The two execution contexts that may hold data_lock. -/
inductive LockOwner
  | writer
  | reader
deriving DecidableEq

/- Acquisition-context phase: between critical sections, or inside one
with-data_lock block of update u with the field indices in ws still to be
written. Each writer block of src/src/main.py touches only a subset of
obd_data's fields (one metric field per polling cycle, three DTC fields in
read_dtcs), so ws is an arbitrary list of field indices chosen at block
entry. -/
inductive WPhase
  | idle
  | writing (u : Nat) (ws : List Nat)

/- Presentation-context phase: between reads, copying the record field by field
under the lock, or holding a completed copy. -/
inductive RPhase
  | idle
  | reading (buf : List Nat)
  | done (buf : List Nat)

/- The shared state: data_lock, obd_data abstracted to one cell per field
holding the index of the update that last wrote it, and the count of writer
critical sections entered so far. -/
structure Store where
  lock : Option LockOwner
  mem : List Nat
  wph : WPhase
  rph : RPhase
  pub : Nat

/- Interleaving semantics with F fields: each micro-step is one lock operation,
one field write, or one field read; field accesses are guarded by the phases
that are only reachable with the lock held, mirroring the with-data_lock blocks
of src/src/main.py, whose writer blocks each update only a subset of the
fields. -/
inductive Step (F : Nat) : Store → Store → Prop
  | wAcquire (s : Store) (ws : List Nat) :
      s.lock = none → s.wph = .idle →
      Step F s { s with lock := some .writer, wph := .writing (s.pub + 1) ws,
                        pub := s.pub + 1 }
  | wWrite (s : Store) (u i : Nat) (ws : List Nat) :
      s.wph = .writing u (i :: ws) → i < F →
      Step F s { s with mem := s.mem.set i u, wph := .writing u ws }
  | wRelease (s : Store) (u : Nat) :
      s.wph = .writing u [] →
      Step F s { s with lock := none, wph := .idle }
  | rAcquire (s : Store) :
      s.lock = none → s.rph = .idle →
      Step F s { s with lock := some .reader, rph := .reading [] }
  | rRead (s : Store) (buf : List Nat) :
      s.rph = .reading buf → buf.length < F →
      Step F s { s with rph := .reading (buf ++ [s.mem.getD buf.length 0]) }
  | rRelease (s : Store) (buf : List Nat) :
      s.rph = .reading buf → buf.length = F →
      Step F s { s with lock := none, rph := .done buf }

/- Startup state: lock free, every field written by update 0, both loops idle. -/
def initStore (F : Nat) : Store :=
  { lock := none, mem := List.replicate F 0, wph := .idle, rph := .idle, pub := 0 }

inductive Reachable (F : Nat) : Store → Prop
  | start : Reachable F (initStore F)
  | step {s t : Store} : Reachable F s → Step F s t → Reachable F t

/- The inductive invariant: the lock discipline ties each in-critical-section
phase to lock ownership, and a reader's partial copy is a prefix snapshot of
the record taken while no writer block is open. -/
def Inv (F : Nat) (s : Store) : Prop :=
  s.mem.length = F ∧
  (∀ u ws, s.wph = .writing u ws → s.lock = some .writer) ∧
  (∀ buf, s.rph = .reading buf →
    s.lock = some .reader ∧ buf.length ≤ F ∧
    buf = s.mem.take buf.length ∧ s.wph = .idle)

/- A completed copy is uniform when every field carries the same update index,
i.e. the copy is fully written by one single update. -/
def uniformCopy (buf : List Nat) : Bool :=
  buf.all (fun x => x == buf.headD 0)

/- Final state of a run over two fields in which update 1 writes only field 0,
update 2 writes only field 1, and the reader then copies the record under the
lock: the completed copy mixes the two updates. -/
def mixedRun : Store :=
  { lock := none, mem := [1, 2], wph := .idle, rph := .done [1, 2], pub := 2 }

/- The same run stopped at the instant just before the reader releases the
lock. -/
def readingRun : Store :=
  { lock := some .reader, mem := [1, 2], wph := .idle, rph := .reading [1, 2],
    pub := 2 }

end SnapshotStore

/- The sixteen uppercase hex digit characters. -/
def hexCharsList : List Char := "0123456789ABCDEF".toList

namespace ObdeckMain

/- Shared record with a pending refresh request, and with a pending clear request. -/
def refreshData : ObdData := { pollingData with dtc_refresh := true }

def clearData : ObdData := { pollingData with dtc_clear := true }

end ObdeckMain

namespace BluetoothConnection

/- Adapter oracle answering OK> to every command. -/
def envOK : List Char → Option (List Char) := fun _ => some ['O', 'K', '>']

/- Attempt oracle under which every physical connection attempt gets no response. -/
def envNoResp : Nat → AttemptOutcome := fun _ => .noResp

def pin1234 : List Char := ['1', '2', '3', '4']

end BluetoothConnection

/- End of definitions. -/

/- Helper lemmas -/

theorem containsSub_iff (kw : List Char) : ∀ s : List Char, containsSub kw s = true ↔ kw <:+: s := by
  intro s
  induction s with
  | nil =>
    simp [containsSub, List.isEmpty_iff]
  | cons c rest ih =>
    simp [containsSub, Bool.or_eq_true, List.isPrefixOf_iff_prefix, ih, List.infix_cons_iff]

theorem mem_of_containsSub {kw s : List Char} {c : Char} (h : containsSub kw s = true)
    (hc : c ∈ kw) : c ∈ s :=
  ((containsSub_iff kw s).1 h).subset hc

theorem hexDigitVal_hexUpperDigit {n : Nat} (h : n < 16) :
    hexDigitVal (hexUpperDigit n) = some n := by
  interval_cases n <;> rfl

theorem pyIntHex_pair {a : Nat} (ha : a < 256) : pyIntHex (hexByteChars a) = some a := by
  have h1 : a / 16 < 16 := by omega
  have h2 : a % 16 < 16 := by omega
  simp only [pyIntHex, hexList, hexByteChars, hexDigitVal_hexUpperDigit h1,
    hexDigitVal_hexUpperDigit h2, List.foldl]
  have : 16 * (16 * 0 + a / 16) + a % 16 = a := by omega
  rw [this]

theorem take2_pair (a : Nat) (rest : List Char) :
    (hexByteChars a ++ rest).take 2 = hexByteChars a := by
  simp [hexByteChars]

theorem drop2_pair (a : Nat) (rest : List Char) :
    (hexByteChars a ++ rest).drop 2 = rest := by
  simp [hexByteChars]

theorem hexUpperDigit_mem (n : Nat) : hexUpperDigit n ∈ hexCharsList := by
  unfold hexUpperDigit
  split <;> decide

theorem upperChar_hex {c : Char} (h : c ∈ hexCharsList) : upperChar c = c := by
  have hall : ∀ x ∈ hexCharsList, upperChar x = x := by decide
  exact hall c h

theorem pySpace_upperChar (c : Char) : pySpace (upperChar c) = pySpace c := by
  unfold upperChar
  split <;> rfl

theorem dropWhile_append_cons {α : Type} (p : α → Bool) (h : α) (t b : List α)
    (hh : p h = false) :
    ∀ a : List α, ∃ a', (a ++ (h :: t) ++ b).dropWhile p = a' ++ ((h :: t) ++ b) := by
  intro a
  induction a with
  | nil => exact ⟨[], by simp [List.dropWhile_cons, hh]⟩
  | cons c a ih =>
    by_cases hc : p c = true
    · obtain ⟨a', ha'⟩ := ih
      refine ⟨a', ?_⟩
      simpa [List.dropWhile_cons, hc] using ha'
    · refine ⟨c :: a, ?_⟩
      simp [List.dropWhile_cons, hc]

theorem infix_pyStrip {h lc : Char} {t t' : List Char} (hk : (h :: t).reverse = lc :: t')
    (hh : pySpace h = false) (hl : pySpace lc = false) {l : List Char}
    (hinf : (h :: t) <:+: l) : (h :: t) <:+: pyStrip l := by
  obtain ⟨a, b, hab⟩ := hinf
  unfold pyStrip
  obtain ⟨a', ha'⟩ := dropWhile_append_cons pySpace h t b hh a
  rw [hab] at ha'
  rw [ha']
  have hrev : ((a' ++ ((h :: t) ++ b)).reverse) = b.reverse ++ ((lc :: t') ++ a'.reverse) := by
    rw [List.reverse_append, List.reverse_append, hk, List.append_assoc]
  rw [hrev]
  obtain ⟨b', hb'⟩ := dropWhile_append_cons pySpace lc t' a'.reverse hl b.reverse
  rw [← List.append_assoc, hb']
  refine ⟨a', b'.reverse, ?_⟩
  rw [List.reverse_append, List.reverse_append, List.reverse_cons]
  have hrev2 : (t'.reverse ++ [lc]) = h :: t := by
    have := congrArg List.reverse hk
    simpa [List.reverse_cons] using this.symm
  rw [List.reverse_reverse, hrev2, List.append_assoc]

theorem map_upperChar_dropWhile (l : List Char) :
    (l.dropWhile pySpace).map upperChar = (l.map upperChar).dropWhile pySpace := by
  induction l with
  | nil => rfl
  | cons c rest ih =>
    by_cases hc : pySpace c = true
    · simp [List.dropWhile_cons, hc, pySpace_upperChar, ih]
    · simp [List.dropWhile_cons, hc, pySpace_upperChar]

theorem map_upperChar_pyStrip (l : List Char) :
    (pyStrip l).map upperChar = pyStrip (l.map upperChar) := by
  unfold pyStrip
  rw [← map_upperChar_dropWhile, ← List.map_reverse, ← map_upperChar_dropWhile,
    ← List.map_reverse]

/-- C9: for every response string containing one of the configured error
substrings ('NO DATA', 'ERROR', 'UNABLE', 'BUS INIT', '?') — regardless of
letter case (containment is stated after case folding) and of surrounding
whitespace (which the check strips) — the validity check is_valid_response
classifies the response as an error and returns false. -/
theorem c9_error_rejected (s kw : List Char) (hkw : kw ∈ OBD2Parser.errorKeywords)
    (hsub : containsSub kw (s.map upperChar) = true) :
    OBD2Parser.is_valid_response s = false := by
  by_cases hs : s = []
  · subst hs; rfl
  · have hinf : kw <:+: s.map upperChar := (containsSub_iff _ _).1 hsub
    have hmem := hkw
    simp only [OBD2Parser.errorKeywords, List.mem_cons, List.not_mem_nil, or_false] at hmem
    have hstrip : kw <:+: pyStrip (s.map upperChar) := by
      rcases hmem with rfl | rfl | rfl | rfl | rfl
      · exact @infix_pyStrip 'N' 'A' ['O', ' ', 'D', 'A', 'T', 'A']
          ['T', 'A', 'D', ' ', 'O', 'N'] rfl rfl rfl _ hinf
      · exact @infix_pyStrip 'E' 'R' ['R', 'R', 'O', 'R'] ['O', 'R', 'R', 'E'] rfl rfl rfl _ hinf
      · exact @infix_pyStrip 'U' 'E' ['N', 'A', 'B', 'L', 'E']
          ['L', 'B', 'A', 'N', 'U'] rfl rfl rfl _ hinf
      · exact @infix_pyStrip 'B' 'T' ['U', 'S', ' ', 'I', 'N', 'I', 'T']
          ['I', 'N', 'I', ' ', 'S', 'U', 'B'] rfl rfl rfl _ hinf
      · exact @infix_pyStrip '?' '?' [] [] rfl rfl rfl _ hinf
    have hdata : containsSub kw ((pyStrip s).map upperChar) = true := by
      rw [map_upperChar_pyStrip]
      exact (containsSub_iff _ _).2 hstrip
    have hany :
        (OBD2Parser.errorKeywords.any fun kw' =>
          containsSub kw' ((pyStrip s).map upperChar)) = true :=
      List.any_eq_true.2 ⟨kw, hkw, hdata⟩
    simp [OBD2Parser.is_valid_response, hs, hany]

/-- Witness for C9: a lowercase 'no data' response with surrounding blanks is
rejected by is_valid_response. -/
theorem c9_error_rejected_witness :
    OBD2Parser.is_valid_response [' ', 'n', 'o', ' ', 'd', 'a', 't', 'a', ' '] = false :=
  c9_error_rejected _ ['N', 'O', ' ', 'D', 'A', 'T', 'A'] (by decide) (by decide)

theorem pyIntHex_digits {a : Nat} (ha : a < 256) :
    pyIntHex [hexUpperDigit (a / 16), hexUpperDigit (a % 16)] = some a := by
  have h := pyIntHex_pair ha
  simpa [hexByteChars] using h

set_option maxHeartbeats 2000000 in
theorem PID_INFO_inv {pid : List Char} {w : Nat} {f : Nat → Nat → ℚ}
    (h : OBD2Commands.PID_INFO pid = some (w, f)) :
    (pid = ['0', '5'] ∧ w = 1 ∧ f = fun (a _ : Nat) => (a : ℚ) - 40) ∨
    (pid = ['0', 'C'] ∧ w = 2 ∧ f = fun (a b : Nat) => ((a : ℚ) * 256 + b) / 4) ∨
    (pid = ['0', 'D'] ∧ w = 1 ∧ f = fun (a _ : Nat) => (a : ℚ)) ∨
    (pid = ['0', 'F'] ∧ w = 1 ∧ f = fun (a _ : Nat) => (a : ℚ) - 40) ∨
    (pid = ['1', '1'] ∧ w = 1 ∧ f = fun (a _ : Nat) => ((a : ℚ) * 100) / 255) ∨
    (pid = ['1', '0'] ∧ w = 2 ∧ f = fun (a b : Nat) => ((a : ℚ) * 256 + b) / 100) ∨
    (pid = ['0', 'A'] ∧ w = 1 ∧ f = fun (a _ : Nat) => (a : ℚ) * 3) ∨
    (pid = ['4', '2'] ∧ w = 2 ∧ f = fun (a b : Nat) => ((a : ℚ) * 256 + b) / 1000) ∨
    (pid = ['0', '4'] ∧ w = 1 ∧ f = fun (a _ : Nat) => ((a : ℚ) * 100) / 255) ∨
    (pid = ['1', 'F'] ∧ w = 2 ∧ f = fun (a b : Nat) => (a : ℚ) * 256 + b) := by
  unfold OBD2Commands.PID_INFO at h
  split_ifs at h with h1 h2 h3 h4 h5 h6 h7 h8 h9 h10
  · injection h with hp; injection hp with hw hf
    exact Or.inl ⟨h1, hw.symm, hf.symm⟩
  · injection h with hp; injection hp with hw hf
    exact Or.inr (Or.inl ⟨h2, hw.symm, hf.symm⟩)
  · injection h with hp; injection hp with hw hf
    exact Or.inr (Or.inr (Or.inl ⟨h3, hw.symm, hf.symm⟩))
  · injection h with hp; injection hp with hw hf
    exact Or.inr (Or.inr (Or.inr (Or.inl ⟨h4, hw.symm, hf.symm⟩)))
  · injection h with hp; injection hp with hw hf
    exact Or.inr (Or.inr (Or.inr (Or.inr (Or.inl ⟨h5, hw.symm, hf.symm⟩))))
  · injection h with hp; injection hp with hw hf
    exact Or.inr (Or.inr (Or.inr (Or.inr (Or.inr (Or.inl ⟨h6, hw.symm, hf.symm⟩)))))
  · injection h with hp; injection hp with hw hf
    exact Or.inr (Or.inr (Or.inr (Or.inr (Or.inr (Or.inr
      (Or.inl ⟨h7, hw.symm, hf.symm⟩))))))
  · injection h with hp; injection hp with hw hf
    exact Or.inr (Or.inr (Or.inr (Or.inr (Or.inr (Or.inr (Or.inr
      (Or.inl ⟨h8, hw.symm, hf.symm⟩)))))))
  · injection h with hp; injection hp with hw hf
    exact Or.inr (Or.inr (Or.inr (Or.inr (Or.inr (Or.inr (Or.inr (Or.inr
      (Or.inl ⟨h9, hw.symm, hf.symm⟩))))))))
  · injection h with hp; injection hp with hw hf
    exact Or.inr (Or.inr (Or.inr (Or.inr (Or.inr (Or.inr (Or.inr (Or.inr (Or.inr
      ⟨h10, hw.symm, hf.symm⟩))))))))

theorem PID_INFO_pid_chars {pid : List Char} {w : Nat} {f : Nat → Nat → ℚ}
    (h : OBD2Commands.PID_INFO pid = some (w, f)) : ∀ c ∈ pid, c ∈ hexCharsList := by
  rcases PID_INFO_inv h with h2 | h2 | h2 | h2 | h2 | h2 | h2 | h2 | h2 | h2
  all_goals obtain ⟨rfl, -, -⟩ := h2
  all_goals decide

theorem canonical_chars {pid : List Char} (hp : ∀ c ∈ pid, c ∈ hexCharsList)
    (w a b : Nat) : ∀ c ∈ mode01Canonical pid w a b, c ∈ hexCharsList := by
  intro c hc
  unfold mode01Canonical at hc
  rcases List.mem_append.1 hc with hL | hR
  · rcases List.mem_append.1 hL with hL2 | hA
    · rcases List.mem_append.1 hL2 with h41 | hpid
      · fin_cases h41 <;> decide
      · exact hp c hpid
    · simp only [hexByteChars, List.mem_cons, List.not_mem_nil, or_false] at hA
      rcases hA with rfl | rfl
      · exact hexUpperDigit_mem _
      · exact hexUpperDigit_mem _
  · by_cases hw : w = 2
    · rw [if_pos hw] at hR
      simp only [hexByteChars, List.mem_cons, List.not_mem_nil, or_false] at hR
      rcases hR with rfl | rfl
      · exact hexUpperDigit_mem _
      · exact hexUpperDigit_mem _
    · rw [if_neg hw] at hR
      exact absurd hR (List.not_mem_nil c)

theorem parse_response_clean (s pid : List Char) (hne : cleanResp s ≠ [])
    (hN : 'N' ∉ cleanResp s) :
    OBD2Parser.parse_response s pid = OBD2Parser.parseMode01 (cleanResp s) pid := by
  unfold OBD2Parser.parse_response
  rw [if_neg, if_neg]
  · intro hcon
    exact hN (List.mem_filter.2 ⟨mem_of_containsSub hcon (by decide), by decide⟩)
  · intro hs
    exact hne (by simp [hs, cleanResp])

theorem parseMode01_canonical {pid : List Char} {w : Nat} {f : Nat → Nat → ℚ}
    (hinfo : OBD2Commands.PID_INFO pid = some (w, f)) {a b : Nat}
    (ha : a < 256) (hb : b < 256) :
    OBD2Parser.parseMode01 (mode01Canonical pid w a b) pid = some (f a b) := by
  rcases PID_INFO_inv hinfo with h2 | h2 | h2 | h2 | h2 | h2 | h2 | h2 | h2 | h2
  all_goals obtain ⟨rfl, rfl, rfl⟩ := h2
  all_goals simp [mode01Canonical, OBD2Parser.parseMode01, OBD2Parser.parse_single_byte,
    OBD2Parser.parse_two_bytes, List.isPrefixOf, hexByteChars,
    pyIntHex_digits ha, pyIntHex_digits hb]

/-- C1: for every syntactically valid Mode-01 response for a known PID — any
response whose cleanup (spaces, prompt and CR/LF characters removed) is the
acknowledgment marker 41, the pid code, and the data bytes of the descriptor's
width rendered in hex — parse_response returns the documented PID_INFO formula
applied to the embedded data bytes, for each of the ten PIDs of the descriptor
table; and in particular the RPM response 41 0C 0F A0 decodes to
(0x0F*256 + 0xA0)/4 = 1000. -/
theorem c1_pid_formula_decode :
    (∀ (pid : List Char) (w : Nat) (f : Nat → Nat → ℚ),
      OBD2Commands.PID_INFO pid = some (w, f) →
      ∀ (a b : Nat), a < 256 → b < 256 →
      ∀ s : List Char, cleanResp s = mode01Canonical pid w a b →
      OBD2Parser.parse_response s pid = some (f a b)) ∧
    OBD2Parser.parse_response ['4', '1', ' ', '0', 'C', ' ', '0', 'F', ' ', 'A', '0']
      ['0', 'C'] = some 1000 := by
  have hgen : ∀ (pid : List Char) (w : Nat) (f : Nat → Nat → ℚ),
      OBD2Commands.PID_INFO pid = some (w, f) →
      ∀ (a b : Nat), a < 256 → b < 256 →
      ∀ s : List Char, cleanResp s = mode01Canonical pid w a b →
      OBD2Parser.parse_response s pid = some (f a b) := by
    intro pid w f hinfo a b ha hb s hs
    have hchars := canonical_chars (PID_INFO_pid_chars hinfo) w a b
    have hne : cleanResp s ≠ [] := by
      rw [hs]
      simp [mode01Canonical]
    have hN : 'N' ∉ cleanResp s := by
      rw [hs]
      intro hmem
      have hm := hchars 'N' hmem
      revert hm
      decide
    rw [parse_response_clean s pid hne hN, hs]
    exact parseMode01_canonical hinfo ha hb
  refine ⟨hgen, ?_⟩
  have h := hgen ['0', 'C'] 2 (fun (a b : Nat) => ((a : ℚ) * 256 + b) / 4) rfl 15 160
    (by norm_num) (by norm_num)
    ['4', '1', ' ', '0', 'C', ' ', '0', 'F', ' ', 'A', '0'] (by decide)
  rw [h]
  norm_num

/-- Witness for C1: the coolant-temperature response 41 05 55 decodes to
0x55 - 40 = 45 through the descriptor formula. -/
theorem c1_pid_formula_decode_witness :
    OBD2Parser.parse_response ['4', '1', '0', '5', '5', '5'] ['0', '5'] = some 45 := by
  have h := c1_pid_formula_decode.1 ['0', '5'] 1 (fun (a _ : Nat) => (a : ℚ) - 40) rfl 85 0
    (by norm_num) (by norm_num) ['4', '1', '0', '5', '5', '5'] (by decide)
  rw [h]
  norm_num

theorem hexPairsChars_chars : ∀ ps : List (Nat × Nat), ∀ c ∈ hexPairsChars ps, c ∈ hexCharsList := by
  intro ps
  induction ps with
  | nil => intro c hc; exact absurd hc (List.not_mem_nil c)
  | cons p rest ih =>
    obtain ⟨b1, b2⟩ := p
    intro c hc
    simp only [hexPairsChars, hexByteChars, List.cons_append, List.nil_append,
      List.mem_cons] at hc
    rcases hc with rfl | rfl | rfl | rfl | hc
    · exact hexUpperDigit_mem _
    · exact hexUpperDigit_mem _
    · exact hexUpperDigit_mem _
    · exact hexUpperDigit_mem _
    · exact ih c hc

theorem filter_nonspace_eq {l : List Char} (h : ∀ c ∈ l, c ∈ hexCharsList) :
    l.filter (fun c => !(c = ' ')) = l := by
  refine List.filter_eq_self.mpr fun c hc => ?_
  have hall : ∀ x ∈ hexCharsList, (!(x = ' ')) = true := by decide
  exact hall c (h c hc)

theorem map_upper_eq {l : List Char} (h : ∀ c ∈ l, c ∈ hexCharsList) :
    l.map upperChar = l := by
  conv_rhs => rw [← List.map_id l]
  exact List.map_congr_left fun c hc => upperChar_hex (h c hc)

theorem dtcLoop_pairs : ∀ ps : List (Nat × Nat), (∀ p ∈ ps, p.1 < 256 ∧ p.2 < 256) →
    OBD2Parser.dtcLoop (hexPairsChars ps) =
      some ((ps.takeWhile fun p => decide ¬(p.1 = 0 ∧ p.2 = 0)).map
        fun p => DTCCommands.decode_dtc p.1 p.2) := by
  intro ps
  induction ps with
  | nil => intro _; rfl
  | cons p rest ih =>
    intro hps
    obtain ⟨b1, b2⟩ := p
    have hb1 : b1 < 256 := (hps (b1, b2) (by simp)).1
    have hb2 : b2 < 256 := (hps (b1, b2) (by simp)).2
    have hrest : ∀ q ∈ rest, q.1 < 256 ∧ q.2 < 256 := fun q hq => hps q (by simp [hq])
    by_cases hz : b1 = 0 ∧ b2 = 0
    · obtain ⟨rfl, rfl⟩ := hz
      rfl
    · have hz' : ¬b1 = 0 ∨ ¬b2 = 0 := not_and_or.mp hz
      simp [hexPairsChars, hexByteChars, OBD2Parser.dtcLoop, pyIntHex_digits hb1,
        pyIntHex_digits hb2, hz, hz', List.takeWhile_cons, ih hrest]

/-- C2: parse_dtc_response walks 2-byte groups after the mode/count header,
decoding each through decode_dtc — whose category table maps the top two bits
00→P, 01→C, 10→B, 11→U and renders the remaining 14 bits as four hex digits —
and stops at the first zero-zero byte pair; in particular the response
43 02 01 33 04 20 00 00 yields exactly P0133 and P0420, and a response whose
byte pairs are all zero yields the empty list. -/
theorem c2_dtc_list_decode :
    (∀ (cnt : Nat) (ps : List (Nat × Nat)), cnt < 256 →
      (∀ p ∈ ps, p.1 < 256 ∧ p.2 < 256) →
      OBD2Parser.parse_dtc_response (['4', '3'] ++ hexByteChars cnt ++ hexPairsChars ps) =
        some ((ps.takeWhile fun p => decide ¬(p.1 = 0 ∧ p.2 = 0)).map
          fun p => DTCCommands.decode_dtc p.1 p.2)) ∧
    (DTCCommands.dtcCategory 0 = 'P' ∧ DTCCommands.dtcCategory 1 = 'C' ∧
      DTCCommands.dtcCategory 2 = 'B' ∧ DTCCommands.dtcCategory 3 = 'U') ∧
    OBD2Parser.parse_dtc_response
        ['4', '3', ' ', '0', '2', ' ', '0', '1', ' ', '3', '3', ' ', '0', '4', ' ',
         '2', '0', ' ', '0', '0', ' ', '0', '0'] =
      some [['P', '0', '1', '3', '3'], ['P', '0', '4', '2', '0']] ∧
    OBD2Parser.parse_dtc_response ['4', '3', ' ', '0', '0', ' ', '0', '0', ' ', '0', '0'] =
      some [] := by
  refine ⟨?_, by decide, by decide, by decide⟩
  intro cnt ps hcnt hps
  have hchars : ∀ c ∈ ['4', '3'] ++ hexByteChars cnt ++ hexPairsChars ps, c ∈ hexCharsList := by
    intro c hc
    rcases List.mem_append.1 hc with hL | hP
    · rcases List.mem_append.1 hL with h43 | hcnt2
      · fin_cases h43 <;> decide
      · simp only [hexByteChars, List.mem_cons, List.not_mem_nil, or_false] at hcnt2
        rcases hcnt2 with rfl | rfl
        · exact hexUpperDigit_mem _
        · exact hexUpperDigit_mem _
    · exact hexPairsChars_chars ps c hP
  have hnd : ¬containsSub noDataKw (['4', '3'] ++ hexByteChars cnt ++ hexPairsChars ps) = true := by
    intro hcon
    have hm := hchars 'N' (mem_of_containsSub hcon (by decide))
    revert hm
    decide
  unfold OBD2Parser.parse_dtc_response
  rw [if_neg (by simp [hexByteChars]), if_neg hnd]
  rw [filter_nonspace_eq hchars, map_upper_eq hchars]
  have hdrop : (['4', '3'] ++ hexByteChars cnt ++ hexPairsChars ps).drop 4 = hexPairsChars ps := by
    simp [hexByteChars]
  show OBD2Parser.dtcLoop ((['4', '3'] ++ hexByteChars cnt ++ hexPairsChars ps).drop 4) =
    some ((ps.takeWhile fun p => decide ¬(p.1 = 0 ∧ p.2 = 0)).map
      fun p => DTCCommands.decode_dtc p.1 p.2)
  rw [hdrop]
  exact dtcLoop_pairs ps hps

/-- Witness for C2: the rendered response for count byte 2 and raw pairs
(0x01, 0x33), (0x04, 0x20) decodes to P0133 and P0420 through the general
characterization. -/
theorem c2_dtc_list_decode_witness :
    OBD2Parser.parse_dtc_response (['4', '3'] ++ hexByteChars 2 ++ hexPairsChars [(1, 51), (4, 32)]) =
      some [['P', '0', '1', '3', '3'], ['P', '0', '4', '2', '0']] := by
  have h := c2_dtc_list_decode.1 2 [(1, 51), (4, 32)] (by norm_num) (by decide)
  rw [h]
  rfl

/-- C3 counterexample: the response 41 0D 12 34 does not carry the requested
PID 0C's acknowledgment (the cleaned text does not begin with 410C), yet
parse_response returns a value for pid 0C, because the code checks only the
41 marker and never the echoed PID code. -/
theorem c3_counterexample :
    (OBD2Parser.parse_response ['4', '1', '0', 'D', '1', '2', '3', '4'] ['0', 'C']).isSome = true ∧
    List.isPrefixOf ['4', '1', '0', 'C']
      (cleanResp ['4', '1', '0', 'D', '1', '2', '3', '4']) = false := by
  constructor
  · rfl
  · rfl

/-- C3 amended: the Mode-01 decoder returns a value only if the cleaned
response begins with the acknowledgment marker 41; the embedded PID code is
not compared against the requested one. -/
theorem c3_amended_prefix_only :
    ∀ (s pid : List Char), (OBD2Parser.parse_response s pid).isSome = true →
      List.isPrefixOf ['4', '1'] (cleanResp s) = true := by
  intro s pid h
  unfold OBD2Parser.parse_response at h
  split_ifs at h with h1 h2
  · simp at h
  · simp at h
  · unfold OBD2Parser.parseMode01 at h
    by_cases hp : List.isPrefixOf ['4', '1'] (cleanResp s) = true
    · exact hp
    · rw [if_neg (by simpa using hp)] at h
      simp at h

/-- Witness for C3 amended: a well-formed RPM response decodes to a value and
indeed begins with the 41 marker after cleanup. -/
theorem c3_amended_prefix_only_witness :
    List.isPrefixOf ['4', '1'] (cleanResp ['4', '1', '0', 'C', '0', 'F', 'A', '0']) = true :=
  c3_amended_prefix_only _ ['0', 'C'] (by rfl)

theorem initRun_fst (env : List Char → Option (List Char)) :
    ∀ cs : List (List Char),
      (BluetoothConnection.initRun env cs).1 = cs.all (BluetoothConnection.cmdPasses env) := by
  intro cs
  induction cs with
  | nil => rfl
  | cons c rest ih =>
    cases henv : env c with
    | none =>
      simp [BluetoothConnection.initRun, BluetoothConnection.cmdPasses, henv]
    | some r =>
      by_cases herr : BluetoothConnection.initErrKeyword r = true
      · simp [BluetoothConnection.initRun, BluetoothConnection.cmdPasses, henv, herr]
      · simp [BluetoothConnection.initRun, BluetoothConnection.cmdPasses, henv, herr, ih]

theorem initRun_snd (env : List Char → Option (List Char)) :
    ∀ cs : List (List Char),
      (BluetoothConnection.initRun env cs).2 =
        cs.take ((cs.takeWhile (BluetoothConnection.cmdPasses env)).length + 1) := by
  intro cs
  induction cs with
  | nil => rfl
  | cons c rest ih =>
    cases henv : env c with
    | none =>
      have hpass : BluetoothConnection.cmdPasses env c = false := by
        simp [BluetoothConnection.cmdPasses, henv]
      simp [BluetoothConnection.initRun, henv, List.takeWhile_cons, hpass]
    | some r =>
      by_cases herr : BluetoothConnection.initErrKeyword r = true
      · have hpass : BluetoothConnection.cmdPasses env c = false := by
          simp [BluetoothConnection.cmdPasses, henv, herr]
        simp [BluetoothConnection.initRun, henv, herr, List.takeWhile_cons, hpass]
      · have hpass : BluetoothConnection.cmdPasses env c = true := by
          simp [BluetoothConnection.cmdPasses, henv, herr]
        simp [BluetoothConnection.initRun, henv, herr, List.takeWhile_cons, hpass, ih]

/-- C6: initialization sends the seven fixed commands ATZ, ATE0, ATL0, ATS0,
ATSP0, ATAT1, 0100 in that order; it succeeds exactly when every command
produces some response containing no explicit error keyword (the checks ERROR
and UNABLE of the code), and the commands actually sent are precisely the
passing prefix plus the first failing command — so the first failure aborts
initialization and nothing further is sent. -/
theorem c6_init_sequence :
    ∀ env : List Char → Option (List Char),
      ((BluetoothConnection.init_elm327 true env).1 = true ↔
        ∀ c ∈ BluetoothConnection.initCmds, BluetoothConnection.cmdPasses env c = true) ∧
      (BluetoothConnection.init_elm327 true env).2 =
        BluetoothConnection.initCmds.take
          ((BluetoothConnection.initCmds.takeWhile
            (BluetoothConnection.cmdPasses env)).length + 1) := by
  intro env
  constructor
  · show (BluetoothConnection.initRun env BluetoothConnection.initCmds).1 = true ↔ _
    rw [initRun_fst]
    exact List.all_eq_true
  · show (BluetoothConnection.initRun env BluetoothConnection.initCmds).2 = _
    exact initRun_snd env BluetoothConnection.initCmds

/-- Witness for C6: an adapter answering OK to everything passes all seven
commands; initialization succeeds and the full sequence is sent in order. -/
theorem c6_init_sequence_witness :
    (BluetoothConnection.init_elm327 true BluetoothConnection.envOK).1 = true ∧
    (BluetoothConnection.init_elm327 true BluetoothConnection.envOK).2 =
      BluetoothConnection.initCmds := by
  constructor
  · exact (c6_init_sequence BluetoothConnection.envOK).1.mpr (by decide)
  · rw [(c6_init_sequence BluetoothConnection.envOK).2]
    decide

theorem connectFuel_alt (env : Nat → BluetoothConnection.AttemptOutcome)
    (fuel k : Nat) (auto : Bool) :
    BluetoothConnection.connectFuel env (fuel + 1) k BluetoothConnection.pinAlt auto =
      some (decide (env k = .ok), [BluetoothConnection.pinAlt]) := by
  cases hk : env k <;> simp [BluetoothConnection.connectFuel, hk]

/-- C7: the connect routine retries with the alternate PIN 0000 only when that
PIN has not been tried yet, so for every attempt oracle, initial PIN and
auto_try_pins setting the recursion terminates within fuel 2 (more fuel changes
nothing — no unbounded recursion), the list of PINs tried is the initial PIN
alone or the initial PIN followed once by 0000, and when every attempt of the
configured PIN set fails the routine returns false. -/
theorem c7_connect_bounded :
    ∀ (env : Nat → BluetoothConnection.AttemptOutcome) (k : Nat) (pin : List Char) (auto : Bool),
      (∀ n : Nat, BluetoothConnection.connectFuel env (n + 2) k pin auto =
        BluetoothConnection.connectFuel env 2 k pin auto) ∧
      ∃ r tr, BluetoothConnection.connectFuel env 2 k pin auto = some (r, tr) ∧
        (tr = [pin] ∨ (pin ≠ BluetoothConnection.pinAlt ∧
          tr = [pin, BluetoothConnection.pinAlt])) ∧
        ((env k ≠ .ok ∧ env (k + 1) ≠ .ok) → r = false) := by
  intro env k pin auto
  cases hk : env k with
  | ok =>
    refine ⟨fun n => by simp [BluetoothConnection.connectFuel, hk], true, [pin],
      by simp [BluetoothConnection.connectFuel, hk], Or.inl rfl, fun h => absurd rfl h.1⟩
  | exn =>
    refine ⟨fun n => by simp [BluetoothConnection.connectFuel, hk], false, [pin],
      by simp [BluetoothConnection.connectFuel, hk], Or.inl rfl, fun _ => rfl⟩
  | noResp =>
    by_cases hg : auto = true ∧ pin ≠ BluetoothConnection.pinAlt
    · refine ⟨fun n => ?_, decide (env (k + 1) = .ok), [pin, BluetoothConnection.pinAlt],
        ?_, Or.inr ⟨hg.2, rfl⟩, fun h => by simp [h.2]⟩
      · show BluetoothConnection.connectFuel env (n + 1 + 1) k pin auto =
          BluetoothConnection.connectFuel env (1 + 1) k pin auto
        simp only [BluetoothConnection.connectFuel, hk, hg]
        cases h2 : env (k + 1) <;> simp [h2, hg]
      · show BluetoothConnection.connectFuel env (1 + 1) k pin auto = _
        simp only [BluetoothConnection.connectFuel, hk, hg]
        cases h2 : env (k + 1) <;> simp [h2, hg]
    · refine ⟨fun n => by simp [BluetoothConnection.connectFuel, hk, hg], false, [pin],
        by simp [BluetoothConnection.connectFuel, hk, hg], Or.inl rfl, fun _ => rfl⟩

/-- Witness for C7: with no response on every attempt, PIN 1234 and
auto_try_pins enabled, extra fuel changes nothing and the routine returns false
after trying 1234 and then 0000 once each. -/
theorem c7_connect_bounded_witness :
    BluetoothConnection.connectFuel BluetoothConnection.envNoResp 5 0
      BluetoothConnection.pin1234 true =
      BluetoothConnection.connectFuel BluetoothConnection.envNoResp 2 0
        BluetoothConnection.pin1234 true ∧
    BluetoothConnection.connectFuel BluetoothConnection.envNoResp 2 0
      BluetoothConnection.pin1234 true =
      some (false, [BluetoothConnection.pin1234, BluetoothConnection.pinAlt]) := by
  refine ⟨(c7_connect_bounded BluetoothConnection.envNoResp 0
    BluetoothConnection.pin1234 true).1 3, by decide⟩

theorem updateField_fields (d : ObdeckMain.ObdData) (n : ObdeckMain.PidName) (v : ℚ) :
    (ObdeckMain.updateField d n v).dtc_refresh = d.dtc_refresh ∧
    (ObdeckMain.updateField d n v).dtc_clear = d.dtc_clear ∧
    (ObdeckMain.updateField d n v).connected = d.connected := by
  cases n <;> simp [ObdeckMain.updateField]

theorem read_dtcs_fields {env : List Char → Option (List Char)}
    {d d' : ObdeckMain.ObdData} (h : ObdeckMain.read_dtcs env d = some d') :
    d'.dtc_refresh = d.dtc_refresh ∧ d'.dtc_clear = d.dtc_clear ∧
    d'.connected = d.connected := by
  unfold ObdeckMain.read_dtcs at h
  cases henv : env ObdeckMain.dtcReadCmd with
  | none =>
    rw [henv] at h
    dsimp only at h
    injection h with h'
    rw [← h']
    exact ⟨rfl, rfl, rfl⟩
  | some r =>
    rw [henv] at h
    dsimp only at h
    cases hp : OBD2Parser.parse_dtc_response r with
    | none => rw [hp] at h; exact Option.noConfusion h
    | some lst =>
      rw [hp] at h
      dsimp only at h
      injection h with h'
      rw [← h']
      exact ⟨rfl, rfl, rfl⟩

theorem read_dtcs_isSome {env : List Char → Option (List Char)}
    (hE : ∀ r, env ObdeckMain.dtcReadCmd = some r →
      (OBD2Parser.parse_dtc_response r).isSome = true)
    (d : ObdeckMain.ObdData) : ∃ d', ObdeckMain.read_dtcs env d = some d' := by
  unfold ObdeckMain.read_dtcs
  cases henv : env ObdeckMain.dtcReadCmd with
  | none => exact ⟨_, rfl⟩
  | some r =>
    dsimp only
    cases hp : OBD2Parser.parse_dtc_response r with
    | none =>
      have hs := hE r henv
      rw [hp] at hs
      exact absurd hs (by simp)
    | some lst =>
      dsimp only
      exact ⟨_, rfl⟩

theorem cycleDiag_fields {env : List Char → Option (List Char)}
    {d1 d2 : ObdeckMain.ObdData} {cr rr : Bool} {acts : List ObdeckMain.CycleAct}
    (h : ObdeckMain.cycleDiag env d1 cr rr = some (d2, acts)) :
    d2.dtc_refresh = d1.dtc_refresh ∧ d2.dtc_clear = d1.dtc_clear ∧
    d2.connected = d1.connected := by
  unfold ObdeckMain.cycleDiag at h
  by_cases hcr : cr = true
  · rw [if_pos hcr] at h
    cases henv : env ObdeckMain.dtcClearCmd with
    | none =>
      rw [henv] at h
      dsimp only at h
      injection h with h'
      injection h' with h1 h2
      rw [← h1]
      exact ⟨rfl, rfl, rfl⟩
    | some r =>
      rw [henv] at h
      dsimp only at h
      by_cases h44 : containsSub ['4', '4'] r = true
      · rw [if_pos h44] at h
        cases hrd : ObdeckMain.read_dtcs env d1 with
        | none => rw [hrd] at h; exact Option.noConfusion h
        | some d3 =>
          rw [hrd] at h
          dsimp only at h
          injection h with h'
          injection h' with h1 h2
          rw [← h1]
          exact read_dtcs_fields hrd
      · rw [if_neg h44] at h
        injection h with h'
        injection h' with h1 h2
        rw [← h1]
        exact ⟨rfl, rfl, rfl⟩
  · rw [if_neg hcr] at h
    by_cases hrr : rr = true
    · rw [if_pos hrr] at h
      cases hrd : ObdeckMain.read_dtcs env d1 with
      | none => rw [hrd] at h; exact Option.noConfusion h
      | some d3 =>
        rw [hrd] at h
        dsimp only at h
        injection h with h'
        injection h' with h1 h2
        rw [← h1]
        exact read_dtcs_fields hrd
    · rw [if_neg hrr] at h
      injection h with h'
      injection h' with h1 h2
      rw [← h1]
      exact ⟨rfl, rfl, rfl⟩

theorem periodicStep_acts (env : List Char → Option (List Char))
    (d : ObdeckMain.ObdData) (idx : Nat) :
    (ObdeckMain.periodicStep env d idx).2 =
      [ObdeckMain.CycleAct.periodicQuery
        (['0', '1'] ++ ObdeckMain.pidCode (ObdeckMain.get_supported_pids.getD idx
          ObdeckMain.PidName.coolantTemp))] := rfl

theorem periodicStep_fields (env : List Char → Option (List Char))
    (d : ObdeckMain.ObdData) (idx : Nat) :
    (ObdeckMain.periodicStep env d idx).1.dtc_refresh = d.dtc_refresh ∧
    (ObdeckMain.periodicStep env d idx).1.dtc_clear = d.dtc_clear ∧
    (ObdeckMain.periodicStep env d idx).1.connected = d.connected := by
  unfold ObdeckMain.periodicStep ObdeckMain.get_pid_command
  dsimp only
  cases henv : env (['0', '1'] ++ ObdeckMain.pidCode (ObdeckMain.get_supported_pids.getD idx
      ObdeckMain.PidName.coolantTemp)) with
  | none => exact ⟨rfl, rfl, rfl⟩
  | some r =>
    dsimp only
    by_cases hv : OBD2Parser.is_valid_response r = true
    · rw [if_pos hv]
      cases hp : OBD2Parser.parse_response r (ObdeckMain.last2 (['0', '1'] ++
          ObdeckMain.pidCode (ObdeckMain.get_supported_pids.getD idx
            ObdeckMain.PidName.coolantTemp))) with
      | none => exact ⟨rfl, rfl, rfl⟩
      | some v => exact updateField_fields d _ v
    · rw [if_neg hv]
      exact ⟨rfl, rfl, rfl⟩

theorem flags_eq_self {d : ObdeckMain.ObdData} (hr : d.dtc_refresh = false)
    (hc : d.dtc_clear = false) :
    { d with dtc_refresh := false, dtc_clear := false } = d := by
  cases d
  dsimp only at hr hc
  subst hr
  subst hc
  rfl

theorem cycle_flags (env : List Char → Option (List Char)) (d : ObdeckMain.ObdData)
    (idx : Nat) :
    (ObdeckMain.cycle env d idx).1.1.dtc_refresh = false ∧
    (ObdeckMain.cycle env d idx).1.1.dtc_clear = false := by
  unfold ObdeckMain.cycle
  dsimp only
  cases hdiag : ObdeckMain.cycleDiag env { d with dtc_refresh := false, dtc_clear := false }
      d.dtc_clear d.dtc_refresh with
  | none => exact ⟨rfl, rfl⟩
  | some pr =>
    obtain ⟨d2, acts⟩ := pr
    dsimp only
    obtain ⟨h1, h2, _⟩ := cycleDiag_fields hdiag
    obtain ⟨p1, p2, _⟩ := periodicStep_fields env d2 idx
    exact ⟨p1.trans h1, p2.trans h2⟩

theorem cycle_connected (env : List Char → Option (List Char)) (d : ObdeckMain.ObdData)
    (idx : Nat) :
    (ObdeckMain.cycle env d idx).1.1.connected = d.connected := by
  unfold ObdeckMain.cycle
  dsimp only
  cases hdiag : ObdeckMain.cycleDiag env { d with dtc_refresh := false, dtc_clear := false }
      d.dtc_clear d.dtc_refresh with
  | none => exact rfl
  | some pr =>
    obtain ⟨d2, acts⟩ := pr
    dsimp only
    obtain ⟨_, _, h3⟩ := cycleDiag_fields hdiag
    obtain ⟨_, _, p3⟩ := periodicStep_fields env d2 idx
    exact p3.trans h3

theorem runCycles_connected (env : List Char → Option (List Char)) :
    ∀ (n : Nat) (s : ObdeckMain.ObdData × Nat),
      (ObdeckMain.runCycles env n s).1.1.connected = s.1.connected := by
  intro n
  induction n with
  | zero => intro s; rfl
  | succ n ih =>
    intro s
    unfold ObdeckMain.runCycles
    dsimp only
    rw [ih]
    exact cycle_connected env s.1 s.2

theorem cycleDiag_spec (env : List Char → Option (List Char)) (d1 : ObdeckMain.ObdData)
    (hE : ∀ r, env ObdeckMain.dtcReadCmd = some r →
      (OBD2Parser.parse_dtc_response r).isSome = true) :
    ∀ cr rr : Bool, ∃ d2 diag, ObdeckMain.cycleDiag env d1 cr rr = some (d2, diag) ∧
      (cr = true → diag = [ObdeckMain.CycleAct.clearCmd] ∨
        diag = [ObdeckMain.CycleAct.clearCmd, ObdeckMain.CycleAct.confirmRead]) ∧
      (cr = false → rr = true → diag = [ObdeckMain.CycleAct.refreshRead]) ∧
      (cr = false → rr = false → diag = [] ∧ d2 = d1) := by
  intro cr rr
  by_cases hcr : cr = true
  · subst hcr
    unfold ObdeckMain.cycleDiag
    rw [if_pos rfl]
    cases henv : env ObdeckMain.dtcClearCmd with
    | none =>
      exact ⟨d1, [ObdeckMain.CycleAct.clearCmd], rfl, fun _ => Or.inl rfl,
        fun hcf => absurd hcf (by simp), fun hcf => absurd hcf (by simp)⟩
    | some r =>
      dsimp only
      by_cases h44 : containsSub ['4', '4'] r = true
      · rw [if_pos h44]
        obtain ⟨d3, hd3⟩ := read_dtcs_isSome hE d1
        rw [hd3]
        exact ⟨d3, [ObdeckMain.CycleAct.clearCmd, ObdeckMain.CycleAct.confirmRead], rfl,
          fun _ => Or.inr rfl, fun hcf => absurd hcf (by simp), fun hcf => absurd hcf (by simp)⟩
      · rw [if_neg h44]
        exact ⟨d1, [ObdeckMain.CycleAct.clearCmd], rfl, fun _ => Or.inl rfl,
          fun hcf => absurd hcf (by simp), fun hcf => absurd hcf (by simp)⟩
  · have hcr' : cr = false := by
      cases cr
      · rfl
      · exact absurd rfl hcr
    subst hcr'
    unfold ObdeckMain.cycleDiag
    rw [if_neg (by simp)]
    by_cases hrr : rr = true
    · subst hrr
      rw [if_pos rfl]
      obtain ⟨d3, hd3⟩ := read_dtcs_isSome hE d1
      rw [hd3]
      exact ⟨d3, [ObdeckMain.CycleAct.refreshRead], rfl, fun hct => absurd hct (by simp),
        fun _ _ => rfl, fun _ hrf => absurd hrf (by simp)⟩
    · have hrr' : rr = false := by
        cases rr
        · rfl
        · exact absurd rfl hrr
      subst hrr'
      rw [if_neg (by simp)]
      exact ⟨d1, [], rfl, fun hct => absurd hct (by simp),
        fun _ hrt => absurd hrt (by simp), fun _ _ => ⟨rfl, rfl⟩⟩

theorem cycle_acts_spec (env : List Char → Option (List Char)) (d : ObdeckMain.ObdData)
    (idx : Nat)
    (hE : ∀ r, env ObdeckMain.dtcReadCmd = some r →
      (OBD2Parser.parse_dtc_response r).isSome = true) :
    ∃ diag : List ObdeckMain.CycleAct,
      (ObdeckMain.cycle env d idx).2 = diag ++
        [ObdeckMain.CycleAct.periodicQuery (['0', '1'] ++ ObdeckMain.pidCode
          (ObdeckMain.get_supported_pids.getD idx ObdeckMain.PidName.coolantTemp))] ∧
      (d.dtc_clear = true → diag = [ObdeckMain.CycleAct.clearCmd] ∨
        diag = [ObdeckMain.CycleAct.clearCmd, ObdeckMain.CycleAct.confirmRead]) ∧
      (d.dtc_clear = false → d.dtc_refresh = true →
        diag = [ObdeckMain.CycleAct.refreshRead]) ∧
      (d.dtc_clear = false → d.dtc_refresh = false → diag = []) := by
  obtain ⟨d2, diag, hd, hcl, hrf, hnn⟩ :=
    cycleDiag_spec env { d with dtc_refresh := false, dtc_clear := false } hE
      d.dtc_clear d.dtc_refresh
  refine ⟨diag, ?_, hcl, hrf, fun h1 h2 => (hnn h1 h2).1⟩
  unfold ObdeckMain.cycle
  dsimp only
  rw [hd]
  dsimp only
  rw [periodicStep_acts]

theorem cycle_noflags_acts (env : List Char → Option (List Char)) (d : ObdeckMain.ObdData)
    (idx : Nat) (hr : d.dtc_refresh = false) (hc : d.dtc_clear = false) :
    (ObdeckMain.cycle env d idx).2 =
      [ObdeckMain.CycleAct.periodicQuery (['0', '1'] ++ ObdeckMain.pidCode
        (ObdeckMain.get_supported_pids.getD idx ObdeckMain.PidName.coolantTemp))] := by
  unfold ObdeckMain.cycle
  dsimp only
  rw [hr, hc]
  dsimp only [ObdeckMain.cycleDiag]
  rw [if_neg (by simp), if_neg (by simp)]
  dsimp only
  rw [periodicStep_acts, List.nil_append]

/-- C4 counterexample: starting from a connected shared record, twelve
consecutive cycles in which every command fails (send_command returns None)
leave the record exactly as it was and still connected, each cycle issuing only
its periodic query — no failure counter exists, no transition to any recovering
state occurs, and the loop never closes the transport nor re-attempts
connection, contradicting the claimed threshold-triggered Recovering
transition for any small threshold. -/
theorem c4_counterexample :
    ObdeckMain.runCycles ObdeckMain.envFail 12 (ObdeckMain.pollingData, 0) =
      ((ObdeckMain.pollingData, 0),
       [[ObdeckMain.CycleAct.periodicQuery ['0', '1', '0', '5']],
        [ObdeckMain.CycleAct.periodicQuery ['0', '1', '0', 'C']],
        [ObdeckMain.CycleAct.periodicQuery ['0', '1', '0', 'D']],
        [ObdeckMain.CycleAct.periodicQuery ['0', '1', '0', 'F']],
        [ObdeckMain.CycleAct.periodicQuery ['0', '1', '1', '1']],
        [ObdeckMain.CycleAct.periodicQuery ['0', '1', '4', '2']],
        [ObdeckMain.CycleAct.periodicQuery ['0', '1', '0', '5']],
        [ObdeckMain.CycleAct.periodicQuery ['0', '1', '0', 'C']],
        [ObdeckMain.CycleAct.periodicQuery ['0', '1', '0', 'D']],
        [ObdeckMain.CycleAct.periodicQuery ['0', '1', '0', 'F']],
        [ObdeckMain.CycleAct.periodicQuery ['0', '1', '1', '1']],
        [ObdeckMain.CycleAct.periodicQuery ['0', '1', '4', '2']]]) ∧
    ObdeckMain.pollingData.connected = true := by
  exact ⟨rfl, rfl⟩

/-- C4 amended: in the steady polling loop a command failure changes nothing —
with no pending intents a failing cycle returns the shared record unchanged,
stays in the polling loop, and merely advances the PID rotation; and over any
number of cycles under any environment the loop never changes the
connected flag (the acquisition loop contains no failure counter, no
recovering state, no transport close and no reconnection). -/
theorem c4_amended_failures_keep_polling :
    (∀ (d : ObdeckMain.ObdData) (idx : Nat), d.dtc_refresh = false → d.dtc_clear = false →
      ObdeckMain.cycle ObdeckMain.envFail d idx =
        ((d, (idx + 1) % 6),
         [ObdeckMain.CycleAct.periodicQuery
           (['0', '1'] ++ ObdeckMain.pidCode
             (ObdeckMain.get_supported_pids.getD idx ObdeckMain.PidName.coolantTemp))])) ∧
    (∀ (env : List Char → Option (List Char)) (n : Nat) (s : ObdeckMain.ObdData × Nat),
      (ObdeckMain.runCycles env n s).1.1.connected = s.1.connected) := by
  constructor
  · intro d idx hr hc
    unfold ObdeckMain.cycle
    dsimp only
    rw [hr, hc, flags_eq_self hr hc]
    rfl
  · exact fun env n s => runCycles_connected env n s

/-- Witness for C4 amended: one failing cycle from the connected startup record
polls coolant temperature and leaves the record untouched; three failing cycles
leave the connected flag unchanged. -/
theorem c4_amended_failures_keep_polling_witness :
    ObdeckMain.cycle ObdeckMain.envFail ObdeckMain.pollingData 0 =
      ((ObdeckMain.pollingData, 1), [ObdeckMain.CycleAct.periodicQuery ['0', '1', '0', '5']]) ∧
    (ObdeckMain.runCycles ObdeckMain.envFail 3 (ObdeckMain.pollingData, 0)).1.1.connected =
      ObdeckMain.pollingData.connected := by
  exact ⟨c4_amended_failures_keep_polling.1 ObdeckMain.pollingData 0 rfl rfl,
    c4_amended_failures_keep_polling.2 ObdeckMain.envFail 3 (ObdeckMain.pollingData, 0)⟩

/-- C5 counterexample: in a cycle that services a pending refresh request, the
periodic PID query is still issued in that same cycle — the actions are the
Mode-03 refresh read followed by the periodic query — contradicting the
claim that servicing a diagnostic intent preempts the periodic query for
that cycle. -/
theorem c5_counterexample :
    (ObdeckMain.cycle ObdeckMain.envFail ObdeckMain.refreshData 0).2 =
      [ObdeckMain.CycleAct.refreshRead,
       ObdeckMain.CycleAct.periodicQuery ['0', '1', '0', '5']] := rfl

theorem cycleDiag_none_flags {env : List Char → Option (List Char)}
    {d1 : ObdeckMain.ObdData} {cr rr : Bool}
    (h : ObdeckMain.cycleDiag env d1 cr rr = none) : cr = true ∨ rr = true := by
  cases cr with
  | true => exact Or.inl rfl
  | false =>
    cases rr with
    | true => exact Or.inr rfl
    | false =>
      unfold ObdeckMain.cycleDiag at h
      rw [if_neg (by simp), if_neg (by simp)] at h
      exact Option.noConfusion h

theorem cycleDiag_some_acts {env : List Char → Option (List Char)}
    {d1 d2 : ObdeckMain.ObdData} {cr rr : Bool} {diag : List ObdeckMain.CycleAct}
    (h : ObdeckMain.cycleDiag env d1 cr rr = some (d2, diag)) :
    (cr = true → diag = [ObdeckMain.CycleAct.clearCmd] ∨
      diag = [ObdeckMain.CycleAct.clearCmd, ObdeckMain.CycleAct.confirmRead]) ∧
    (cr = false → rr = true → diag = [ObdeckMain.CycleAct.refreshRead]) ∧
    (cr = false → rr = false → diag = [] ∧ d2 = d1) := by
  cases cr with
  | true =>
    unfold ObdeckMain.cycleDiag at h
    rw [if_pos rfl] at h
    refine ⟨fun _ => ?_, fun hcf => absurd hcf (by simp),
      fun hcf => absurd hcf (by simp)⟩
    cases henv : env ObdeckMain.dtcClearCmd with
    | none =>
      rw [henv] at h
      dsimp only at h
      injection h with hp
      injection hp with hd ha
      exact Or.inl ha.symm
    | some r =>
      rw [henv] at h
      dsimp only at h
      by_cases h44 : containsSub ['4', '4'] r = true
      · rw [if_pos h44] at h
        cases hrd : ObdeckMain.read_dtcs env d1 with
        | none =>
          rw [hrd] at h
          exact Option.noConfusion h
        | some d3 =>
          rw [hrd] at h
          dsimp only at h
          injection h with hp
          injection hp with hd ha
          exact Or.inr ha.symm
      · rw [if_neg h44] at h
        injection h with hp
        injection hp with hd ha
        exact Or.inl ha.symm
  | false =>
    unfold ObdeckMain.cycleDiag at h
    rw [if_neg (by simp)] at h
    cases rr with
    | true =>
      rw [if_pos rfl] at h
      refine ⟨fun hct => absurd hct (by simp), fun _ _ => ?_,
        fun _ hrf => absurd hrf (by simp)⟩
      cases hrd : ObdeckMain.read_dtcs env d1 with
      | none =>
        rw [hrd] at h
        exact Option.noConfusion h
      | some d3 =>
        rw [hrd] at h
        dsimp only at h
        injection h with hp
        injection hp with hd ha
        exact ha.symm
    | false =>
      rw [if_neg (by simp)] at h
      injection h with hp
      injection hp with hd ha
      exact ⟨fun hct => absurd hct (by simp), fun _ hrt => absurd hrt (by simp),
        fun _ _ => ⟨ha.symm, hd.symm⟩⟩

theorem cycle_total_acts (env : List Char → Option (List Char))
    (d : ObdeckMain.ObdData) (idx : Nat) :
    (∃ diag : List ObdeckMain.CycleAct,
      (ObdeckMain.cycle env d idx).2 = diag ++
        [ObdeckMain.CycleAct.periodicQuery (['0', '1'] ++ ObdeckMain.pidCode
          (ObdeckMain.get_supported_pids.getD idx ObdeckMain.PidName.coolantTemp))] ∧
      (d.dtc_clear = true → diag = [ObdeckMain.CycleAct.clearCmd] ∨
        diag = [ObdeckMain.CycleAct.clearCmd, ObdeckMain.CycleAct.confirmRead]) ∧
      (d.dtc_clear = false → d.dtc_refresh = true →
        diag = [ObdeckMain.CycleAct.refreshRead]) ∧
      (d.dtc_clear = false → d.dtc_refresh = false → diag = [])) ∨
    ((ObdeckMain.cycle env d idx).2 =
        (if d.dtc_clear = true then
          [ObdeckMain.CycleAct.clearCmd, ObdeckMain.CycleAct.confirmRead]
        else [ObdeckMain.CycleAct.refreshRead]) ∧
      (ObdeckMain.cycle env d idx).1.1.error = ObdeckMain.parseErrMsg ∧
      (ObdeckMain.cycle env d idx).1.2 = idx ∧
      (d.dtc_clear = true ∨ d.dtc_refresh = true)) := by
  unfold ObdeckMain.cycle
  dsimp only
  cases hdiag : ObdeckMain.cycleDiag env
      { d with dtc_refresh := false, dtc_clear := false } d.dtc_clear d.dtc_refresh with
  | none =>
    right
    exact ⟨rfl, rfl, rfl, cycleDiag_none_flags hdiag⟩
  | some pr =>
    obtain ⟨d2, diag⟩ := pr
    left
    dsimp only
    obtain ⟨hA, hB, hC⟩ := cycleDiag_some_acts hdiag
    exact ⟨diag, by rw [periodicStep_acts], hA, hB, fun h1 h2 => (hC h1 h2).1⟩

/-- C5 amended: in each cycle a pending clear request is serviced in preference
to a pending refresh request (when both are pending only the clear runs and the
refresh request is discarded), a pending refresh alone is serviced, and both
intent flags are consumed; the periodic PID query is not preempted — it is
issued in the same cycle after the diagnostic operation — except that a DTC
parse exception raised during the diagnostic read aborts the rest of that
iteration, recording an error message and leaving the PID rotation index
unchanged, so only such exception cycles lack the periodic query. -/
theorem c5_amended_priority :
    ∀ (env : List Char → Option (List Char)) (d : ObdeckMain.ObdData) (idx : Nat),
      ((ObdeckMain.cycle env d idx).1.1.dtc_refresh = false ∧
        (ObdeckMain.cycle env d idx).1.1.dtc_clear = false) ∧
      (d.dtc_clear = true → ObdeckMain.CycleAct.clearCmd ∈ (ObdeckMain.cycle env d idx).2 ∧
        ObdeckMain.CycleAct.refreshRead ∉ (ObdeckMain.cycle env d idx).2) ∧
      (d.dtc_clear = false → d.dtc_refresh = true →
        ObdeckMain.CycleAct.refreshRead ∈ (ObdeckMain.cycle env d idx).2) ∧
      (d.dtc_clear = false → ObdeckMain.CycleAct.clearCmd ∉ (ObdeckMain.cycle env d idx).2) ∧
      ((∃ c, ObdeckMain.CycleAct.periodicQuery c ∈ (ObdeckMain.cycle env d idx).2) ∨
        ((ObdeckMain.cycle env d idx).1.1.error = ObdeckMain.parseErrMsg ∧
          (ObdeckMain.cycle env d idx).1.2 = idx ∧
          (d.dtc_clear = true ∨ d.dtc_refresh = true))) := by
  intro env d idx
  refine ⟨cycle_flags env d idx, ?_⟩
  rcases cycle_total_acts env d idx with ⟨diag, hacts, hcl, hrf, hnn⟩ |
    ⟨hacts, herr, hidx, hfl⟩
  · refine ⟨?_, ?_, ?_, Or.inl ⟨['0', '1'] ++ ObdeckMain.pidCode
      (ObdeckMain.get_supported_pids.getD idx ObdeckMain.PidName.coolantTemp),
      by rw [hacts]; simp⟩⟩
    · intro hc
      rcases hcl hc with h | h <;> rw [hacts, h] <;> simp
    · intro hc hr
      rw [hacts, hrf hc hr]
      simp
    · intro hc
      by_cases hr : d.dtc_refresh = true
      · rw [hacts, hrf hc hr]
        simp
      · have hr' : d.dtc_refresh = false := by
          cases h : d.dtc_refresh
          · rfl
          · exact absurd h hr
        rw [hacts, hnn hc hr']
        simp
  · refine ⟨?_, ?_, ?_, Or.inr ⟨herr, hidx, hfl⟩⟩
    · intro hc
      rw [hacts, hc]
      simp
    · intro hc hr
      rw [hacts, hc]
      simp
    · intro hc
      rw [hacts, hc]
      simp

/-- Witness for C5 amended: with a pending clear request and every command
failing, the cycle consumes the flag, services the clear, performs no refresh
read, and — since no DTC parse exception occurs — still issues the periodic
query in the same cycle. -/
theorem c5_amended_priority_witness :
    ((ObdeckMain.cycle ObdeckMain.envFail ObdeckMain.clearData 0).1.1.dtc_clear = false) ∧
    ObdeckMain.CycleAct.clearCmd ∈
      (ObdeckMain.cycle ObdeckMain.envFail ObdeckMain.clearData 0).2 ∧
    ObdeckMain.CycleAct.refreshRead ∉
      (ObdeckMain.cycle ObdeckMain.envFail ObdeckMain.clearData 0).2 ∧
    ∃ c, ObdeckMain.CycleAct.periodicQuery c ∈
      (ObdeckMain.cycle ObdeckMain.envFail ObdeckMain.clearData 0).2 := by
  obtain ⟨hflags, hclear, hrf, hnc, hper⟩ :=
    c5_amended_priority ObdeckMain.envFail ObdeckMain.clearData 0
  obtain ⟨hmem, hnomem⟩ := hclear rfl
  rcases hper with hp | hp
  · exact ⟨hflags.2, hmem, hnomem, hp⟩
  · exact absurd hp.1 (by decide)

/-- C8: setting the refresh intent flag twice before the scheduler consumes it
has exactly the same effect as setting it once — the flag is a boolean, so the
second set is the identity — and with no clear pending the next cycle performs
exactly one refresh read, after which the flag is consumed, so the following
cycle performs no refresh read at all. -/
theorem c8_refresh_idempotent :
    ∀ (env env2 : List Char → Option (List Char)) (d : ObdeckMain.ObdData) (idx : Nat),
      (∀ r, env ObdeckMain.dtcReadCmd = some r →
        (OBD2Parser.parse_dtc_response r).isSome = true) →
      d.dtc_clear = false →
      ObdeckMain.request_refresh (ObdeckMain.request_refresh d) =
        ObdeckMain.request_refresh d ∧
      (ObdeckMain.cycle env (ObdeckMain.request_refresh d) idx).2.count
        ObdeckMain.CycleAct.refreshRead = 1 ∧
      (ObdeckMain.cycle env2 (ObdeckMain.cycle env (ObdeckMain.request_refresh d) idx).1.1
        (ObdeckMain.cycle env (ObdeckMain.request_refresh d) idx).1.2).2.count
        ObdeckMain.CycleAct.refreshRead = 0 := by
  intro env env2 d idx hE hc
  refine ⟨rfl, ?_, ?_⟩
  · obtain ⟨diag, hacts, hcl, hrf, hnn⟩ :=
      cycle_acts_spec env (ObdeckMain.request_refresh d) idx hE
    have hdiag : diag = [ObdeckMain.CycleAct.refreshRead] := hrf hc rfl
    rw [hacts, hdiag]
    simp
  · obtain ⟨h1, h2⟩ := cycle_flags env (ObdeckMain.request_refresh d) idx
    rw [cycle_noflags_acts env2 _ _ h1 h2]
    simp

/-- Witness for C8: from the startup record, requesting a refresh twice equals
requesting it once; the next failing cycle performs exactly one refresh read
and the cycle after that performs none. -/
theorem c8_refresh_idempotent_witness :
    ObdeckMain.request_refresh (ObdeckMain.request_refresh ObdeckMain.pollingData) =
      ObdeckMain.request_refresh ObdeckMain.pollingData ∧
    (ObdeckMain.cycle ObdeckMain.envFail
      (ObdeckMain.request_refresh ObdeckMain.pollingData) 0).2.count
      ObdeckMain.CycleAct.refreshRead = 1 ∧
    (ObdeckMain.cycle ObdeckMain.envFail
      (ObdeckMain.cycle ObdeckMain.envFail
        (ObdeckMain.request_refresh ObdeckMain.pollingData) 0).1.1
      (ObdeckMain.cycle ObdeckMain.envFail
        (ObdeckMain.request_refresh ObdeckMain.pollingData) 0).1.2).2.count
      ObdeckMain.CycleAct.refreshRead = 0 :=
  c8_refresh_idempotent ObdeckMain.envFail ObdeckMain.envFail ObdeckMain.pollingData 0
    (fun _ h => Option.noConfusion h) rfl

theorem take_succ_getD {l : List Nat} {n : Nat} (h : n < l.length) :
    l.take (n + 1) = l.take n ++ [l.getD n 0] := by
  induction l generalizing n with
  | nil => simp at h
  | cons a l ih =>
    cases n with
    | zero => rfl
    | succ n =>
      have h' : n < l.length := by
        simp only [List.length_cons] at h
        omega
      simp only [List.take_succ_cons, List.getD_cons_succ]
      rw [ih h', List.cons_append]

theorem inv_init (F : Nat) : SnapshotStore.Inv F (SnapshotStore.initStore F) := by
  refine ⟨by simp [SnapshotStore.initStore], ?_, ?_⟩
  · intro u ws h
    exact SnapshotStore.WPhase.noConfusion h
  · intro buf h
    exact SnapshotStore.RPhase.noConfusion h

theorem inv_step {F : Nat} {s t : SnapshotStore.Store} (hs : SnapshotStore.Inv F s)
    (hst : SnapshotStore.Step F s t) : SnapshotStore.Inv F t := by
  obtain ⟨hlen, hwrite, hread⟩ := hs
  cases hst with
  | wAcquire ws hlock hwph =>
    refine ⟨hlen, ?_, ?_⟩
    · intro u' ws' h
      rfl
    · intro buf h
      dsimp only at h
      obtain ⟨hl, _⟩ := hread buf h
      rw [hlock] at hl
      exact Option.noConfusion hl
  | wWrite u i ws hwph hi =>
    have hlw := hwrite u (i :: ws) hwph
    refine ⟨?_, ?_, ?_⟩
    · dsimp only
      rw [List.length_set]
      exact hlen
    · intro u' ws' h
      exact hlw
    · intro buf h
      dsimp only at h
      obtain ⟨hl, _⟩ := hread buf h
      rw [hlw] at hl
      injection hl with hl2
      exact SnapshotStore.LockOwner.noConfusion hl2
  | wRelease u hwph =>
    have hlw := hwrite u [] hwph
    refine ⟨hlen, ?_, ?_⟩
    · intro u' ws' h
      dsimp only at h
      exact SnapshotStore.WPhase.noConfusion h
    · intro buf h
      dsimp only at h
      obtain ⟨hl, _⟩ := hread buf h
      rw [hlw] at hl
      injection hl with hl2
      exact SnapshotStore.LockOwner.noConfusion hl2
  | rAcquire hlock hrph =>
    refine ⟨hlen, ?_, ?_⟩
    · intro u' ws' h
      dsimp only at h
      have hl := hwrite u' ws' h
      rw [hlock] at hl
      exact Option.noConfusion hl
    · intro buf h
      dsimp only at h
      injection h with hb
      subst hb
      refine ⟨rfl, by simp, rfl, ?_⟩
      cases hw : s.wph with
      | idle => rfl
      | writing u ws =>
        have hl := hwrite u ws hw
        rw [hlock] at hl
        exact Option.noConfusion hl
  | rRead buf hrph hblen =>
    obtain ⟨hl, hble, hpre, hw⟩ := hread buf hrph
    refine ⟨hlen, ?_, ?_⟩
    · intro u' ws' h
      dsimp only at h
      exact hwrite u' ws' h
    · intro buf' h
      dsimp only at h
      injection h with hb
      subst hb
      refine ⟨hl, ?_, ?_, hw⟩
      · simp only [List.length_append, List.length_cons, List.length_nil]
        omega
      · have hbm : buf.length < s.mem.length := by
          rw [hlen]
          exact hblen
        have hlb : (buf ++ [s.mem.getD buf.length 0]).length = buf.length + 1 := by
          simp
        dsimp only
        rw [hlb, take_succ_getD hbm, ← hpre]
  | rRelease buf hrph hlenF =>
    obtain ⟨hl, hble, hpre, hw⟩ := hread buf hrph
    refine ⟨hlen, ?_, ?_⟩
    · intro u' ws' h
      dsimp only at h
      rw [hw] at h
      exact SnapshotStore.WPhase.noConfusion h
    · intro buf' h
      dsimp only at h
      exact SnapshotStore.RPhase.noConfusion h

theorem reachable_inv {F : Nat} {s : SnapshotStore.Store}
    (h : SnapshotStore.Reachable F s) : SnapshotStore.Inv F s := by
  induction h with
  | start => exact inv_init F
  | step _ hstep ih => exact inv_step ih hstep

/-- C10 counterexample: with two writer critical sections that each write only
a subset of the fields — update 1 writes field 0 only, update 2 writes field 1
only, exactly as main.py's with-data_lock writer blocks each touch only some of
obd_data's fields — a subsequent reader copy taken entirely under the lock is
[1, 2]: field 0 was last written by update 1 and field 1 by update 2, so the
completed copy mixes two updates and is not uniformly from any single one,
refuting the claimed no-mix atomicity of publication. -/
theorem c10_counterexample :
    SnapshotStore.Reachable 2 SnapshotStore.mixedRun ∧
    SnapshotStore.mixedRun.rph = SnapshotStore.RPhase.done [1, 2] ∧
    SnapshotStore.uniformCopy [1, 2] = false := by
  refine ⟨?_, rfl, rfl⟩
  have h0 : SnapshotStore.Reachable 2 (SnapshotStore.initStore 2) :=
    SnapshotStore.Reachable.start
  have h1 := SnapshotStore.Reachable.step h0
    (SnapshotStore.Step.wAcquire _ [0] rfl rfl)
  have h2 := SnapshotStore.Reachable.step h1
    (SnapshotStore.Step.wWrite _ 1 0 [] rfl (by norm_num))
  have h3 := SnapshotStore.Reachable.step h2 (SnapshotStore.Step.wRelease _ 1 rfl)
  have h4 := SnapshotStore.Reachable.step h3
    (SnapshotStore.Step.wAcquire _ [1] rfl rfl)
  have h5 := SnapshotStore.Reachable.step h4
    (SnapshotStore.Step.wWrite _ 2 1 [] rfl (by norm_num))
  have h6 := SnapshotStore.Reachable.step h5 (SnapshotStore.Step.wRelease _ 2 rfl)
  have h7 := SnapshotStore.Reachable.step h6 (SnapshotStore.Step.rAcquire _ rfl rfl)
  have h8 := SnapshotStore.Reachable.step h7
    (SnapshotStore.Step.rRead _ [] rfl (by norm_num))
  have h9 := SnapshotStore.Reachable.step h8
    (SnapshotStore.Step.rRead _ [1] rfl (by norm_num))
  have h10 := SnapshotStore.Reachable.step h9
    (SnapshotStore.Step.rRelease _ [1, 2] rfl rfl)
  exact h10

/-- C10 amended: the single data_lock still guarantees single-instant
consistency — while the reader is copying, no writer critical section is open,
the lock is held by the reader, the partial copy is exactly a prefix of the
shared record at that instant, and a completed copy of all F fields equals the
whole record — but, contrary to the claim, a completed copy need not be fully
written by one publish operation, because each writer critical section of
main.py updates only a subset of the fields. -/
theorem c10_amended_snapshot_consistent :
    ∀ (F : Nat) (s : SnapshotStore.Store) (buf : List Nat),
      SnapshotStore.Reachable F s → s.rph = SnapshotStore.RPhase.reading buf →
      buf = s.mem.take buf.length ∧ s.wph = SnapshotStore.WPhase.idle ∧
      s.lock = some SnapshotStore.LockOwner.reader ∧
      (buf.length = F → buf = s.mem) := by
  intro F s buf hreach hrd
  obtain ⟨hlen, _, hread⟩ := reachable_inv hreach
  obtain ⟨hl, hble, hpre, hw⟩ := hread buf hrd
  refine ⟨hpre, hw, hl, ?_⟩
  intro hF
  rw [hF, ← hlen, List.take_length] at hpre
  exact hpre

/-- Witness for C10 amended: in the concrete two-field run, at the instant the
reader holds the complete copy under the lock, no writer block is open and the
copy equals the shared record. -/
theorem c10_amended_snapshot_consistent_witness :
    ([1, 2] : List Nat) = SnapshotStore.readingRun.mem.take 2 ∧
    SnapshotStore.readingRun.wph = SnapshotStore.WPhase.idle ∧
    SnapshotStore.readingRun.lock = some SnapshotStore.LockOwner.reader ∧
    ([1, 2] : List Nat) = SnapshotStore.readingRun.mem := by
  have h0 : SnapshotStore.Reachable 2 (SnapshotStore.initStore 2) :=
    SnapshotStore.Reachable.start
  have h1 := SnapshotStore.Reachable.step h0
    (SnapshotStore.Step.wAcquire _ [0] rfl rfl)
  have h2 := SnapshotStore.Reachable.step h1
    (SnapshotStore.Step.wWrite _ 1 0 [] rfl (by norm_num))
  have h3 := SnapshotStore.Reachable.step h2 (SnapshotStore.Step.wRelease _ 1 rfl)
  have h4 := SnapshotStore.Reachable.step h3
    (SnapshotStore.Step.wAcquire _ [1] rfl rfl)
  have h5 := SnapshotStore.Reachable.step h4
    (SnapshotStore.Step.wWrite _ 2 1 [] rfl (by norm_num))
  have h6 := SnapshotStore.Reachable.step h5 (SnapshotStore.Step.wRelease _ 2 rfl)
  have h7 := SnapshotStore.Reachable.step h6 (SnapshotStore.Step.rAcquire _ rfl rfl)
  have h8 := SnapshotStore.Reachable.step h7
    (SnapshotStore.Step.rRead _ [] rfl (by norm_num))
  have h9 : SnapshotStore.Reachable 2 SnapshotStore.readingRun :=
    SnapshotStore.Reachable.step h8
      (SnapshotStore.Step.rRead _ [1] rfl (by norm_num))
  obtain ⟨hp, hwph, hlock, hfull⟩ :=
    c10_amended_snapshot_consistent 2 SnapshotStore.readingRun [1, 2] h9 rfl
  exact ⟨hp, hwph, hlock, hfull rfl⟩
